import Mathlib

/-
Verification development for the gpiod GPIO character-device library.

The definitions below are a shallow embedding of `gpiod.go`.  Pure control
flow (validation order, caching rules, truncation of value slices) is
translated statement by statement from the Go source.  The kernel ioctl
boundary (the `uapi` package, which is not part of the verified sources) is
modelled from the spec as a small explicit kernel state together with
success/failure oracles; every such definition carries a doc comment
starting `Modelled from the spec:`.
-/

namespace Gpiod

/-- Errors surfaced by the library.  `errClosed`, `errInvalidOffset` and
`errPermissionDenied` embed the `ErrClosed`, `ErrInvalidOffset` and
`ErrPermissionDenied` values of gpiod.go; `kernel errno` stands for an error
code returned by a kernel call (22 is EINVAL, the value `unix.EINVAL` that
`Reconfigure` returns directly for event requests). -/
inductive GErr where
  | errClosed
  | errInvalidOffset
  | errPermissionDenied
  | kernel (errno : Nat)
deriving DecidableEq, Repr

/-- The `unix.EINVAL` error value. -/
def einval : GErr := .kernel 22

/-- Line direction (`uapi.LineDirection`); `asIs` is the zero value. -/
inductive LineDirection where
  | asIs
  | input
  | output
deriving DecidableEq, Repr

/-- Line drive (`uapi.LineDrive`); `pushPull` is the zero value. -/
inductive LineDrive where
  | pushPull
  | openDrain
  | openSource
deriving DecidableEq, Repr

/-- Line bias (`uapi.LineBias`); `unset` is the zero value. -/
inductive LineBias where
  | unset
  | disabled
  | pullUp
  | pullDown
deriving DecidableEq, Repr

/-- Line edge detection (`uapi.LineEdge`); `off` is the zero value. -/
inductive LineEdge where
  | off
  | rising
  | falling
  | both
deriving DecidableEq, Repr

/-- The bit-set of meaningful fields (`uapi.LineFlagV2`), one Boolean per
flag bit. -/
structure LineFlagV2 where
  activeLow : Bool := false
  direction : Bool := false
  drive : Bool := false
  bias : Bool := false
  edgeDetection : Bool := false
  debounce : Bool := false
deriving DecidableEq, Repr

/-- `LineConfig` of gpiod.go: the flag bit-set plus the field values. -/
structure LineConfig where
  flags : LineFlagV2 := {}
  direction : LineDirection := .asIs
  drive : LineDrive := .pushPull
  bias : LineBias := .unset
  edgeDetection : LineEdge := .off
  debounce : Nat := 0
deriving DecidableEq, Repr

/-- `LineInfo` of gpiod.go. -/
structure LineInfo where
  offset : Int := 0
  name : String := ""
  consumer : String := ""
  config : LineConfig := {}
deriving DecidableEq, Repr

/-- Modelled from the spec: `uapi.HandleData`, the fixed 64-entry value
array of the ABI v1 value ioctls, as a 64-entry list (the `uapi` package is
not among the verified sources).  The zero value is all zeros. -/
def hdZero : List Int := List.replicate 64 0

/-- Modelled from the spec: the zero value of the ABI v2 value bitmap
(`uapi.LineValues`), one bit per line, all clear. -/
def lvZero : List Bool := List.replicate 64 false

/-- Modelled from the spec: `uapi.LineValues.Set(i, v)` marks line `i`
active exactly when `v` is nonzero. -/
def lvSet (lv : List Bool) (i : Nat) (v : Int) : List Bool :=
  lv.set i (v != 0)

/-- Modelled from the spec: `uapi.LineValues.Get(i)` returns the active
state of line `i` as 0 or 1. -/
def lvGet (lv : List Bool) (i : Nat) : Int :=
  if lv.getD i false then 1 else 0

/-- The loop `for i, v := range values { vv.Set(i, v) }` used by
`Lines.SetValues` and `Chip.getLine`: sets consecutive bits starting at
index `i` from the value list. -/
def setLoop (lv : List Bool) (i : Nat) : List Int → List Bool
  | [] => lv
  | v :: rest => setLoop (lvSet lv i v) (i + 1) rest

/-- Modelled from the spec: `uapi.NewLineValues(vv...)` builds a value
bitmap from the given values, missing lines inactive. -/
def newLineValues (vals : List Int) : List Bool :=
  setLoop lvZero 0 vals

/-- Modelled from the spec: the kernel-side state of one line request.
`v1` records whether the request descriptor was produced by an ABI v1
handle/event request (such a descriptor accepts only the v1 value ioctls,
and a v2 descriptor only the v2 ones); `nlines` is the number of requested
lines and `vals` their current active states in request order. -/
structure KernState where
  v1 : Bool
  nlines : Nat
  vals : List Bool
deriving DecidableEq, Repr

/-- Modelled from the spec: the ABI v1 `SetLineValues` ioctl.  It is
accepted only on a v1 descriptor (EINVAL otherwise) and drives every
requested line to the active state given by the corresponding entry of the
64-byte value array. -/
def kSetLineValues (k : KernState) (hd : List Int) : Except GErr KernState :=
  if k.v1 then
    .ok { k with vals := (List.range k.nlines).map (fun i => hd.getD i 0 != 0) }
  else
    .error (.kernel 22)

/-- Modelled from the spec: the ABI v2 `SetLineValuesV2` ioctl.  It is
accepted only on a v2 descriptor (EINVAL otherwise) and drives every
requested line to the bit value at its index. -/
def kSetLineValuesV2 (k : KernState) (lv : List Bool) : Except GErr KernState :=
  if k.v1 then
    .error (.kernel 22)
  else
    .ok { k with vals := (List.range k.nlines).map (fun i => lv.getD i false) }

/-- Modelled from the spec: the ABI v1 `GetLineValues` ioctl, returning the
64-byte value array holding the active state of line `i` at index `i`. -/
def kGetLineValues (k : KernState) : Except GErr (List Int) :=
  if k.v1 then
    .ok ((List.range 64).map (fun i => if k.vals.getD i false then 1 else 0))
  else
    .error (.kernel 22)

/-- Modelled from the spec: the ABI v2 `GetLineValuesV2` ioctl, returning
the value bitmap of the requested lines. -/
def kGetLineValuesV2 (k : KernState) : Except GErr (List Bool) :=
  if k.v1 then
    .error (.kernel 22)
  else
    .ok ((List.range 64).map (fun i => k.vals.getD i false))

/-- `baseLine` of gpiod.go: the mutable state of a line request.  The file
descriptor itself is modelled separately as a `KernState`. -/
structure BaseLine where
  offsets : List Int := []
  isEvent : Bool := false
  chip : String := ""
  abi : Nat := 0
  config : LineConfig := {}
  values : List Int := []
  info : Option (List LineInfo) := none
  closed : Bool := false
  watcher : Bool := false
deriving DecidableEq, Repr

/-- `baseLine.Close`: fails if already closed, else marks the request
closed (the watcher stop and descriptor close are kernel-side effects). -/
def baseClose (l : BaseLine) : Except GErr BaseLine :=
  if l.closed then .error .errClosed else .ok { l with closed := true }

/-- `LineOptions` of the options file (which is not among the verified
sources): the accumulating effective request options.  Field names follow
the Go struct; `eh` records whether an event handler was supplied. -/
structure LineOptions where
  consumer : String := ""
  config : LineConfig := {}
  values : List Int := []
  abi : Nat := 0
  eh : Bool := false
deriving DecidableEq, Repr

/-- Modelled from the spec: a `LineReconfig` option.  The option-builder
syntax is out of the spec's scope; an option is an arbitrary mutation of
the accumulating options, exactly the effect of `applyLineReconfig(&lo)`. -/
def LineReconfig := LineOptions → LineOptions

/-- The surplus-value truncation `if len(lo.values) > n { lo.values =
lo.values[:n] }` shared by `RequestLines` and `Reconfigure`. -/
def truncValues (lo : LineOptions) (n : Nat) : LineOptions :=
  if n < lo.values.length then { lo with values := lo.values.take n } else lo

/-- Kernel configuration calls that `Reconfigure` can issue. -/
inductive Ioctl where
  | setConfigV1
  | setConfigV2
deriving DecidableEq, Repr

/-- The option merge performed by `baseLine.Reconfigure`: start from the
cached config and values, apply the options in order, then truncate
surplus values to the number of requested lines. -/
def mergedOptions (l : BaseLine) (options : List LineReconfig) : LineOptions :=
  truncValues (options.foldl (fun acc o => o acc)
    { config := l.config, values := l.values }) l.offsets.length

/-- `baseLine.Reconfigure` of gpiod.go.  `kr` is the outcome of the kernel
set-config call (`none` for success); the third component lists the kernel
configuration calls issued.  Event requests are rejected with EINVAL before
anything else; an empty option list is a no-op; the closed check follows;
then the merged options are sent to the kernel and the cache is updated
only on success (under ABI v1 only the configuration is written back). -/
def reconfigure (l : BaseLine) (kr : Option GErr) (options : List LineReconfig) :
    Option GErr × BaseLine × List Ioctl :=
  if l.isEvent then (some einval, l, [])
  else if options.length = 0 then (none, l, [])
  else if l.closed then (some .errClosed, l, [])
  else
    let lo := mergedOptions l options
    if l.abi = 1 then
      match kr with
      | some e => (some e, l, [.setConfigV1])
      | none => (none, { l with config := lo.config }, [.setConfigV1])
    else
      match kr with
      | some e => (some e, l, [.setConfigV2])
      | none => (none, { l with config := lo.config, values := lo.values }, [.setConfigV2])

/-- `Line.Value` of gpiod.go: closed check, then the ABI-appropriate value
ioctl, returning entry 0. -/
def lineValue (l : BaseLine) (k : KernState) : Except GErr Int :=
  if l.closed then .error .errClosed
  else if l.abi = 1 then
    match kGetLineValues k with
    | .error e => .error e
    | .ok hd => .ok (hd.getD 0 0)
  else
    match kGetLineValuesV2 k with
    | .error e => .error e
    | .ok lv => .ok (lvGet lv 0)

/-- `Line.SetValue` of gpiod.go.  The direction check precedes the closed
check.  Under ABI v1 the source initialises `hd := uapi.HandleData{}` and
issues `SetLineValues(l.vfd, hd)` without copying `value` into `hd`; under
ABI v2 it sends `NewLineValues(value)`.  On kernel success the cached
values become `[value]`. -/
def lineSetValue (l : BaseLine) (k : KernState) (value : Int) :
    Except GErr (BaseLine × KernState) :=
  if l.config.direction ≠ .output then .error .errPermissionDenied
  else if l.closed then .error .errClosed
  else if l.abi = 1 then
    match kSetLineValues k hdZero with
    | .error e => .error e
    | .ok k' => .ok ({ l with values := [value] }, k')
  else
    match kSetLineValuesV2 k (newLineValues [value]) with
    | .error e => .error e
    | .ok k' => .ok ({ l with values := [value] }, k')

/-- `Lines.Values` of gpiod.go: closed check, clamp the fill count to
`min (buffer length) (line count)`, read via the ABI-appropriate ioctl and
fill the first `lines` buffer entries, leaving the rest unchanged. -/
def linesValues (l : BaseLine) (k : KernState) (values : List Int) :
    Except GErr (List Int) :=
  if l.closed then .error .errClosed
  else
    let lines := min values.length l.offsets.length
    if l.abi = 1 then
      match kGetLineValues k with
      | .error e => .error e
      | .ok hd => .ok ((List.range lines).map (fun i => hd.getD i 0) ++ values.drop lines)
    else
      match kGetLineValuesV2 k with
      | .error e => .error e
      | .ok lv => .ok ((List.range lines).map (fun i => lvGet lv i) ++ values.drop lines)

/-- `Lines.SetValues` of gpiod.go.  The direction check precedes the closed
check; surplus values are truncated; the source then builds a v2 value
bitmap and issues `SetLineValuesV2` on the request descriptor regardless of
the request's ABI generation.  On kernel success the cached values become
the truncated list. -/
def linesSetValues (l : BaseLine) (k : KernState) (values : List Int) :
    Except GErr (BaseLine × KernState) :=
  if l.config.direction ≠ .output then .error .errPermissionDenied
  else if l.closed then .error .errClosed
  else
    let values := if l.offsets.length < values.length then values.take l.offsets.length else values
    match kSetLineValuesV2 k (setLoop lvZero 0 values) with
    | .error e => .error e
    | .ok k' => .ok ({ l with values := values }, k')

/-- `Line.Info` of gpiod.go: closed check, cached snapshot if present, else
a fetch through a transient chip handle (`fetch` stands for that external
interaction), cached for the lifetime of the request. -/
def lineInfoReq (l : BaseLine) (fetch : Except GErr LineInfo) :
    Except GErr (BaseLine × LineInfo) :=
  if l.closed then .error .errClosed
  else
    match l.info with
    | some is => .ok (l, is.headD {})
    | none =>
      match fetch with
      | .error e => .error e
      | .ok inf => .ok ({ l with info := some [inf] }, inf)

/-- `Lines.Info` of gpiod.go: closed check, cached snapshots if present,
else a fetch through a transient chip handle, cached. -/
def linesInfoReq (l : BaseLine) (fetch : Except GErr (List LineInfo)) :
    Except GErr (BaseLine × List LineInfo) :=
  if l.closed then .error .errClosed
  else
    match l.info with
    | some is => .ok (l, is)
    | none =>
      match fetch with
      | .error e => .error e
      | .ok infos => .ok ({ l with info := some infos }, infos)

/-- Modelled from the spec: a caller-supplied line option.  The option
builders live in the options file, which is not among the verified
sources; the spec describes them as overlays that replace only the fields
the caller explicitly sets, so an option is a record of optional fields. -/
structure LineOption where
  consumer : Option String := none
  abi : Option Nat := none
  direction : Option LineDirection := none
  drive : Option LineDrive := none
  bias : Option LineBias := none
  edge : Option LineEdge := none
  debounce : Option Nat := none
  activeLow : Option Bool := none
  values : Option (List Int) := none
  eh : Option Bool := none
deriving DecidableEq, Repr

/-- Modelled from the spec: applying an option's configuration fields —
each explicitly set field replaces the current value and marks the matching
flag bit meaningful. -/
def applyConfig (o : LineOption) (c : LineConfig) : LineConfig :=
  let c := match o.direction with
    | some d => { c with direction := d, flags := { c.flags with direction := true } }
    | none => c
  let c := match o.drive with
    | some d => { c with drive := d, flags := { c.flags with drive := true } }
    | none => c
  let c := match o.bias with
    | some b => { c with bias := b, flags := { c.flags with bias := true } }
    | none => c
  let c := match o.edge with
    | some e => { c with edgeDetection := e, flags := { c.flags with edgeDetection := true } }
    | none => c
  let c := match o.debounce with
    | some d => { c with debounce := d, flags := { c.flags with debounce := true } }
    | none => c
  match o.activeLow with
  | some b => { c with flags := { c.flags with activeLow := b } }
  | none => c

/-- Modelled from the spec: `option.applyLineOption(&lo)` — replace exactly
the fields the option explicitly sets. -/
def applyLineOption (o : LineOption) (lo : LineOptions) : LineOptions :=
  { consumer := o.consumer.getD lo.consumer
    abi := o.abi.getD lo.abi
    values := o.values.getD lo.values
    eh := o.eh.getD lo.eh
    config := applyConfig o lo.config }

/-- `ChipOptions` of gpiod.go: default consumer, default configuration and
requested ABI version (0 means auto-detect). -/
structure ChipOptions where
  consumer : String := ""
  config : LineConfig := {}
  abi : Nat := 0
deriving DecidableEq, Repr

/-- `Chip` of gpiod.go.  `iw` records whether the lazily created info
watcher is attached, `ich` is the per-offset handler registration map
(handlers named by number). -/
structure Chip where
  name : String := ""
  label : String := ""
  lines : Nat := 0
  options : ChipOptions := {}
  iw : Bool := false
  ich : List (Int × Nat) := []
  closed : Bool := false
deriving DecidableEq, Repr

/-- The starting line options of `Chip.RequestLines`: taken from the chip's
defaults (consumer, configuration, ABI version). -/
def chipLineOptions (c : Chip) : LineOptions :=
  { consumer := c.options.consumer
    config := c.options.config
    abi := c.options.abi }

/-- The option merge of `Chip.RequestLines`: defaults from the chip, then
each caller option applied in order. -/
def effectiveLineOptions (c : Chip) (options : List LineOption) : LineOptions :=
  options.foldl (fun acc o => applyLineOption o acc) (chipLineOptions c)

/-- The line-info query a chip operation issues, tagged by ABI generation
(the kernel's answer is outside the verified sources). -/
inductive InfoQuery where
  | v1 (offset : Int)
  | v2 (offset : Int)
deriving DecidableEq, Repr

/-- `Chip.LineInfo` of gpiod.go: closed check, then offset-range check,
then the info query for the chip's cached ABI version.  No line ownership
is involved.  The result is the query issued; the kernel's reply is
external. -/
def Chip.lineInfo (c : Chip) (offset : Int) : Except GErr InfoQuery :=
  if c.closed then .error .errClosed
  else if offset < 0 ∨ (c.lines : Int) ≤ offset then .error .errInvalidOffset
  else if c.options.abi = 1 then .ok (.v1 offset)
  else .ok (.v2 offset)

/-- The chip value constructed by `NewChip` right after `GetChipInfo`
succeeds, before ABI detection. -/
def newChipBase (name label : String) (lines : Nat) (co : ChipOptions) : Chip :=
  { name := name, label := label, lines := lines, options := co,
    iw := false, ich := [], closed := false }

/-- The ABI auto-detection step of `NewChip`: with requested version 0 a
probe `LineInfo(0)` is issued (`kinfo` tells whether the kernel accepts a
given info query) and the cached version becomes 2 on success, 1
otherwise; an explicitly requested version is kept. -/
def newChipProbe (c : Chip) (kinfo : InfoQuery → Bool) : Chip :=
  if c.options.abi = 0 then
    if (match c.lineInfo 0 with | .ok q => kinfo q | .error _ => false) then
      { c with options := { c.options with abi := 2 } }
    else
      { c with options := { c.options with abi := 1 } }
  else c

/-- The empty-label default of `NewChip`. -/
def newChipLabel (c : Chip) : Chip :=
  if c.label = "" then { c with label := "unknown" } else c

/-- `NewChip` of gpiod.go, after the device has been validated and opened:
construct the chip, auto-detect the ABI version when none was requested,
then default an empty label. -/
def newChip (name label : String) (lines : Nat) (co : ChipOptions)
    (kinfo : InfoQuery → Bool) : Chip :=
  newChipLabel (newChipProbe (newChipBase name label lines co) kinfo)

/-- The kernel request path `Chip.RequestLines` selects: the unified ABI v2
line request, the ABI v1 event request, or the ABI v1 handle request. -/
inductive ReqKind where
  | lineV2
  | eventV1
  | handleV1
deriving DecidableEq, Repr

/-- `Chip.RequestLines` of gpiod.go: validate all offsets, merge the chip
defaults with the caller options, truncate surplus values, then select the
kernel call path by effective ABI version and event handler presence.
`kok` is the outcome of the kernel request call; on the v2 path a watcher
is attached when edge detection is configured, on the v1 event path the
request is marked an event request with its watcher attached.  The chip is
returned unchanged alongside the result. -/
def Chip.requestLines (c : Chip) (offsets : List Int) (options : List LineOption)
    (kok : Bool) : Except GErr (BaseLine × ReqKind) × Chip :=
  if offsets.any (fun o => decide (o < 0) || decide ((c.lines : Int) ≤ o)) then
    (.error .errInvalidOffset, c)
  else
    let lo := truncValues (effectiveLineOptions c options) offsets.length
    let ll : BaseLine :=
      { offsets := offsets, isEvent := false, chip := c.name, abi := lo.abi,
        config := lo.config, values := lo.values, info := none, closed := false,
        watcher := false }
    if lo.abi = 2 then
      if kok then
        (.ok ({ ll with watcher := lo.config.edgeDetection != .off }, .lineV2), c)
      else (.error (.kernel 5), c)
    else if lo.eh then
      if kok then (.ok ({ ll with isEvent := true, watcher := true }, .eventV1), c)
      else (.error (.kernel 5), c)
    else
      if kok then (.ok (ll, .handleV1), c) else (.error (.kernel 5), c)

/-- The map update `c.ich[offset] = lich` of `Chip.WatchLineInfo`. -/
def ichInsert (m : List (Int × Nat)) (offset : Int) (h : Nat) : List (Int × Nat) :=
  (offset, h) :: m.filter (fun p => p.1 != offset)

/-- `Chip.WatchLineInfo` of gpiod.go: closed check; lazily create the info
watcher (`createOk` is the outcome of `createInfoWatcher`, which on success
attaches the watcher and installs a fresh empty handler map); then issue
the ABI-appropriate watch ioctl (`watchOk` its outcome) and register the
handler only on ioctl success. -/
def Chip.watchLineInfo (c : Chip) (offset : Int) (h : Nat)
    (createOk watchOk : Bool) : Option GErr × Chip :=
  if c.closed then (some .errClosed, c)
  else
    match (if c.iw then some c
           else if createOk then some { c with iw := true, ich := [] }
           else none) with
    | none => (some (.kernel 5), c)
    | some c1 =>
      if c1.options.abi = 1 then
        if watchOk then (none, { c1 with ich := ichInsert c1.ich offset h })
        else (some (.kernel 5), c1)
      else
        if watchOk then (none, { c1 with ich := ichInsert c1.ich offset h })
        else (some (.kernel 5), c1)

/-! ### Helper lemmas -/

theorem setLoop_length (vals : List Int) : ∀ (lv : List Bool) (i : Nat),
    (setLoop lv i vals).length = lv.length := by
  induction vals with
  | nil => intro lv i; rfl
  | cons v rest ih =>
    intro lv i
    simp [setLoop, ih, lvSet]

theorem rangeMap_getD {α : Type} (n j : Nat) (f : Nat → α) (d : α) :
    ((List.range n).map f).getD j d = if j < n then f j else d := by
  rw [List.getD_eq_getElem?_getD, List.getElem?_map]
  by_cases h : j < n
  · rw [List.getElem?_range h]
    simp [h]
  · rw [List.getElem?_eq_none]
    · simp [h]
    · simpa using Nat.le_of_not_lt h

theorem setLoop_getD (vals : List Int) : ∀ (lv : List Bool) (i j : Nat),
    (setLoop lv i vals).getD j false =
      if i ≤ j ∧ j < i + vals.length ∧ j < lv.length then
        (vals.getD (j - i) 0 != 0)
      else lv.getD j false := by
  induction vals with
  | nil =>
    intro lv i j
    have h : ¬(i ≤ j ∧ j < i + ([] : List Int).length ∧ j < lv.length) := by
      simp; omega
    rw [setLoop, if_neg h]
  | cons v rest ih =>
    intro lv i j
    rw [setLoop, ih]
    have hlen : (lvSet lv i v).length = lv.length := by simp [lvSet]
    rw [hlen]
    by_cases hij : j = i
    · subst hij
      have h1 : ¬(j + 1 ≤ j ∧ j < j + 1 + rest.length ∧ j < lv.length) := by omega
      rw [if_neg h1]
      by_cases hj : j < lv.length
      · have h2 : j ≤ j ∧ j < j + (v :: rest).length ∧ j < lv.length := by
          refine ⟨le_refl j, ?_, hj⟩
          simp
        rw [if_pos h2]
        simp [lvSet, List.getD_eq_getElem?_getD, List.getElem?_set_self hj]
      · have h2 : ¬(j ≤ j ∧ j < j + (v :: rest).length ∧ j < lv.length) := by
          intro h; exact hj h.2.2
        rw [if_neg h2]
        have : lvSet lv j v = lv := by
          simp only [lvSet]
          exact List.set_eq_of_length_le (Nat.le_of_not_lt hj)
        rw [this]
    · have hne : (lvSet lv i v).getD j false = lv.getD j false := by
        simp [lvSet, List.getD_eq_getElem?_getD, List.getElem?_set_ne (Ne.symm hij)]
      by_cases hc : i + 1 ≤ j ∧ j < i + 1 + rest.length ∧ j < lv.length
      · have hc2 : i ≤ j ∧ j < i + (v :: rest).length ∧ j < lv.length := by
          simp at hc ⊢
          omega
        rw [if_pos hc, if_pos hc2]
        have : j - i = (j - (i + 1)) + 1 := by omega
        rw [this]
        rfl
      · by_cases hc2 : i ≤ j ∧ j < i + (v :: rest).length ∧ j < lv.length
        · exfalso
          simp at hc hc2
          omega
        · rw [if_neg hc, if_neg hc2, hne]

theorem setLoop_zero_getD (vs : List Int) (i : Nat) (h64 : i < 64) :
    (setLoop lvZero 0 vs).getD i false
      = if i < vs.length then (vs.getD i 0 != 0) else false := by
  rw [setLoop_getD]
  have hlen : lvZero.length = 64 := by simp [lvZero]
  rw [hlen]
  by_cases hh : i < vs.length
  · rw [if_pos (show 0 ≤ i ∧ i < 0 + vs.length ∧ i < 64 from
      ⟨Nat.zero_le i, by omega, h64⟩), if_pos hh]
    simp
  · rw [if_neg (show ¬(0 ≤ i ∧ i < 0 + vs.length ∧ i < 64) from by omega),
      if_neg hh]
    unfold lvZero
    rw [List.getD_eq_getElem?_getD, List.getElem?_replicate]
    split <;> rfl

theorem getD_append_drop (p buf : List Int) (n j : Nat) (hp : p.length = n)
    (hj : n ≤ j) :
    (p ++ buf.drop n).getD j 0 = buf.getD j 0 := by
  rw [List.getD_eq_getElem?_getD, List.getD_eq_getElem?_getD,
      List.getElem?_append_right (by omega), hp, List.getElem?_drop]
  congr 2
  omega

theorem length_append_drop (p buf : List Int) (n : Nat) (hp : p.length = n)
    (hn : n ≤ buf.length) :
    (p ++ buf.drop n).length = buf.length := by
  simp [List.length_append, hp]
  omega

/-- The last explicitly set value of a field accessed by `sel` among the
given options, if any. -/
def lastSet {α : Type} (sel : LineOption → Option α) (opts : List LineOption) :
    Option α :=
  (opts.filterMap sel).getLast?

theorem foldl_apply_get {α : Type} (get : LineOptions → α) (sel : LineOption → Option α)
    (hpt : ∀ o lo, get (applyLineOption o lo) = (sel o).getD (get lo)) :
    ∀ (opts : List LineOption) (lo : LineOptions),
      get (opts.foldl (fun acc o => applyLineOption o acc) lo)
        = (lastSet sel opts).getD (get lo) := by
  intro opts
  induction opts with
  | nil => intro lo; simp [lastSet]
  | cons o rest ih =>
    intro lo
    rw [List.foldl_cons, ih]
    simp only [lastSet, List.filterMap_cons]
    cases hsel : sel o with
    | none => rw [hpt, hsel, Option.getD_none]
    | some a =>
      cases hfm : rest.filterMap sel with
      | nil => simp [hfm, hpt, hsel]
      | cons b tl =>
        simp only [List.getLast?_cons_cons]
        have hb : (b :: tl).getLast?.isSome := by
          cases tl <;> simp [List.getLast?_cons_cons]
        obtain ⟨x, hx⟩ := Option.isSome_iff_exists.mp hb
        simp [hx]

theorem applyConfig_direction (o : LineOption) (c : LineConfig) :
    (applyConfig o c).direction = o.direction.getD c.direction := by
  unfold applyConfig
  cases o.direction <;> cases o.drive <;> cases o.bias <;> cases o.edge <;>
    cases o.debounce <;> cases o.activeLow <;> rfl

theorem applyConfig_drive (o : LineOption) (c : LineConfig) :
    (applyConfig o c).drive = o.drive.getD c.drive := by
  unfold applyConfig
  cases o.direction <;> cases o.drive <;> cases o.bias <;> cases o.edge <;>
    cases o.debounce <;> cases o.activeLow <;> rfl

theorem applyConfig_bias (o : LineOption) (c : LineConfig) :
    (applyConfig o c).bias = o.bias.getD c.bias := by
  unfold applyConfig
  cases o.direction <;> cases o.drive <;> cases o.bias <;> cases o.edge <;>
    cases o.debounce <;> cases o.activeLow <;> rfl

theorem applyConfig_edge (o : LineOption) (c : LineConfig) :
    (applyConfig o c).edgeDetection = o.edge.getD c.edgeDetection := by
  unfold applyConfig
  cases o.direction <;> cases o.drive <;> cases o.bias <;> cases o.edge <;>
    cases o.debounce <;> cases o.activeLow <;> rfl

theorem truncValues_abi (lo : LineOptions) (n : Nat) :
    (truncValues lo n).abi = lo.abi := by
  unfold truncValues; split <;> rfl

theorem truncValues_config (lo : LineOptions) (n : Nat) :
    (truncValues lo n).config = lo.config := by
  unfold truncValues; split <;> rfl

theorem truncValues_eh (lo : LineOptions) (n : Nat) :
    (truncValues lo n).eh = lo.eh := by
  unfold truncValues; split <;> rfl

theorem truncValues_consumer (lo : LineOptions) (n : Nat) :
    (truncValues lo n).consumer = lo.consumer := by
  unfold truncValues; split <;> rfl

theorem requestLines_ok_shape (c : Chip) (offsets : List Int) (opts : List LineOption)
    (kok : Bool) (ll : BaseLine) (kind : ReqKind)
    (hreq : (c.requestLines offsets opts kok).1 = .ok (ll, kind)) :
    ll.abi = (effectiveLineOptions c opts).abi ∧
    ll.config = (effectiveLineOptions c opts).config ∧
    ll.closed = false ∧
    ll.offsets = offsets ∧
    (kind = .lineV2 ↔ (effectiveLineOptions c opts).abi = 2) ∧
    (kind = .eventV1 ↔
      ((effectiveLineOptions c opts).abi ≠ 2 ∧ (effectiveLineOptions c opts).eh = true)) ∧
    (ll.isEvent = true ↔
      ((effectiveLineOptions c opts).abi ≠ 2 ∧ (effectiveLineOptions c opts).eh = true)) := by
  unfold Chip.requestLines at hreq
  split at hreq
  · simp at hreq
  · simp only [truncValues_abi] at hreq
    split at hreq
    · rename_i habi2
      split at hreq
      · simp only [Except.ok.injEq, Prod.mk.injEq] at hreq
        obtain ⟨hll, hkind⟩ := hreq
        subst hll
        subst hkind
        simp [truncValues_abi, truncValues_config, habi2]
      · simp at hreq
    · rename_i habi2
      split at hreq
      · rename_i heh
        split at hreq
        · simp only [Except.ok.injEq, Prod.mk.injEq] at hreq
          obtain ⟨hll, hkind⟩ := hreq
          subst hll
          subst hkind
          rw [truncValues_eh] at heh
          simp [truncValues_abi, truncValues_config, habi2, heh]
        · simp at hreq
      · rename_i heh
        split at hreq
        · simp only [Except.ok.injEq, Prod.mk.injEq] at hreq
          obtain ⟨hll, hkind⟩ := hreq
          subst hll
          subst hkind
          rw [truncValues_eh] at heh
          simp only [Bool.not_eq_true] at heh
          simp [truncValues_abi, truncValues_config, habi2, heh]
        · simp at hreq

/-! ### Concrete instances used by witnesses and counterexamples -/

/-- An open ABI v1 output request on a single line (offset 3), as built by
the v1 handle request path. -/
def lineC1 : BaseLine :=
  { offsets := [3], isEvent := false, chip := "gpiochip0", abi := 1,
    config := { flags := { direction := true }, direction := .output },
    values := [0], info := none, closed := false, watcher := false }

/-- The kernel state of `lineC1`'s descriptor: a v1 handle over one line,
currently inactive. -/
def kernC1 : KernState := { v1 := true, nlines := 1, vals := [false] }

/-- A chip handle with cached ABI version 1. -/
def chipW2 : Chip :=
  { name := "gpiochip0", label := "mock", lines := 8,
    options := { consumer := "gpiod-test", config := {}, abi := 1 } }

/-- A caller option requesting both-edge detection with an event handler. -/
def optW2 : LineOption := { edge := some .both, eh := some true }

/-- The event request produced by `chipW2.requestLines [2] [optW2] true`. -/
def llW2 : BaseLine :=
  { offsets := [2], isEvent := true, chip := "gpiochip0", abi := 1,
    config := { flags := { edgeDetection := true }, edgeDetection := .both },
    values := [], info := none, closed := false, watcher := true }

/-- A chip handle with cached ABI version 2. -/
def chipX2 : Chip :=
  { name := "gpiochip0", label := "mock", lines := 8,
    options := { consumer := "gpiod-test", config := {}, abi := 2 } }

/-- The edge-detection request produced by
`chipX2.requestLines [1] [optW2] true`: not an event request. -/
def llX2 : BaseLine :=
  { offsets := [1], isEvent := false, chip := "gpiochip0", abi := 2,
    config := { flags := { edgeDetection := true }, edgeDetection := .both },
    values := [], info := none, closed := false, watcher := true }

/-- An open ABI v1 single-line output request with cached values `[0]`. -/
def lineC3 : BaseLine :=
  { offsets := [5], isEvent := false, chip := "gpiochip0", abi := 1,
    config := { flags := { direction := true }, direction := .output },
    values := [0], info := none, closed := false, watcher := false }

/-- A reconfigure option that sets the output values to `[1]` (as the
output-value option builders of the options file do). -/
def roptC3 : LineReconfig := fun lo => { lo with values := [1] }

/-- A closed (already-released) single-line output request. -/
def lineC5 : BaseLine :=
  { offsets := [3], isEvent := false, chip := "gpiochip0", abi := 2,
    config := { flags := { direction := true }, direction := .output },
    values := [1], info := none, closed := true, watcher := false }

/-- The kernel state backing `lineC5`'s released descriptor. -/
def kernC5 : KernState := { v1 := false, nlines := 1, vals := [true] }

/-- An open two-line ABI v2 input request. -/
def lineC6 : BaseLine :=
  { offsets := [4, 6], isEvent := false, chip := "gpiochip0", abi := 2,
    config := { flags := { direction := true }, direction := .input },
    values := [], info := none, closed := false, watcher := false }

/-- The kernel state of `lineC6`'s descriptor: line 4 active, line 6
inactive. -/
def kernC6 : KernState := { v1 := false, nlines := 2, vals := [true, false] }

/-- An open three-line ABI v2 output request. -/
def lineC4 : BaseLine :=
  { offsets := [0, 1, 2], isEvent := false, chip := "gpiochip0", abi := 2,
    config := { flags := { direction := true }, direction := .output },
    values := [], info := none, closed := false, watcher := false }

/-- The kernel state of `lineC4`'s descriptor, all lines inactive. -/
def kernC4 : KernState := { v1 := false, nlines := 3, vals := [false, false, false] }

/-- `lineC4` after `setValues([1,0,1,1])` (surplus value truncated). -/
def lineC4w : BaseLine := { lineC4 with values := [1, 0, 1] }

/-- `kernC4` after `setValues([1,0,1,1])`. -/
def kernC4w : KernState := { kernC4 with vals := [true, false, true] }

/-! ### Claim theorems -/

/-- Claim C1 (code bug): under ABI v1, `Line.SetValue` is supposed to write
the supplied active state and cache it, but the source initialises the
value array `hd` to zero and never copies `value` into it before
`SetLineValues`, so the kernel drives the line inactive no matter what
value was supplied while the cache records the supplied value; and
`Lines.SetValues` issues the v2-only `SetLineValuesV2` ioctl even on a v1
request descriptor, which the kernel rejects.  Here `setValue(1)` on an
ABI v1 output line leaves the kernel line inactive (`vals = [false]`)
while the cache becomes `[1]`, and `setValues([1])` fails outright. -/
theorem setValue_v1_kernel_mismatch :
    lineSetValue lineC1 kernC1 1
      = .ok ({ lineC1 with values := [1] }, { kernC1 with vals := [false] }) ∧
    linesSetValues lineC1 kernC1 [1] = .error (.kernel 22) :=
  ⟨rfl, rfl⟩

/-- Claim C2 (amended): a request created as an ABI v1 event request (edge
detection under ABI v1) fails `Reconfigure` with EINVAL for every options
argument, including an empty one, and issues no kernel configuration
call.  (Under ABI v2 an edge-detection request is not an event request and
reconfigure proceeds, see the counterexample.) -/
theorem reconfigure_event_request_einval (c : Chip) (offsets : List Int)
    (opts : List LineOption) (kok : Bool) (ll : BaseLine) (kind : ReqKind)
    (habi : (effectiveLineOptions c opts).abi ≠ 2)
    (heh : (effectiveLineOptions c opts).eh = true)
    (hreq : (c.requestLines offsets opts kok).1 = .ok (ll, kind)) :
    ll.isEvent = true ∧ kind = .eventV1 ∧
      ∀ (kr : Option GErr) (ropts : List LineReconfig),
        reconfigure ll kr ropts = (some einval, ll, []) := by
  obtain ⟨-, -, -, -, -, hkind, hev⟩ :=
    requestLines_ok_shape c offsets opts kok ll kind hreq
  have hev' : ll.isEvent = true := hev.mpr ⟨habi, heh⟩
  refine ⟨hev', hkind.mpr ⟨habi, heh⟩, ?_⟩
  intro kr ropts
  simp [reconfigure, hev']

/-- Claim C2 witness: an ABI v1 both-edges request on offset 2; its
reconfigure with no options returns EINVAL and issues nothing. -/
theorem reconfigure_event_request_einval_witness :
    (effectiveLineOptions chipW2 [optW2]).abi ≠ 2 ∧
    (effectiveLineOptions chipW2 [optW2]).eh = true ∧
    (chipW2.requestLines [2] [optW2] true).1 = .ok (llW2, .eventV1) ∧
    reconfigure llW2 none [] = (some einval, llW2, []) := by
  refine ⟨by decide, by decide, by rfl, ?_⟩
  exact (reconfigure_event_request_einval chipW2 [2] [optW2] true llW2 .eventV1
    (by decide) (by decide) (by rfl)).2.2 none []

/-- Claim C2 counterexample: under ABI v2, a request created with edge
detection enabled is not an event request, and `Reconfigure` with an
option proceeds — it returns success (not EINVAL) and issues the v2
set-config kernel call, refuting the claim for that ABI generation. -/
theorem reconfigure_v2_edge_not_einval :
    (chipX2.requestLines [1] [optW2] true).1 = .ok (llX2, .lineV2) ∧
    llX2.isEvent = false ∧
    (reconfigure llX2 none [fun lo => lo]).1 = none ∧
    (reconfigure llX2 none [fun lo => lo]).2.2 = [.setConfigV2] :=
  ⟨rfl, rfl, rfl, rfl⟩

/-- Claim C3 (amended): for an open non-event request, a failed kernel
set-config call leaves the cached configuration and values exactly as they
were; on kernel success the cached configuration updates to the merged
options and, under ABI v2, the cached values update to the merged values,
while under ABI v1 the cached values are left unchanged. -/
theorem reconfigure_cache_spec (l : BaseLine) (kr : Option GErr)
    (ropts : List LineReconfig)
    (hev : l.isEvent = false) (hcl : l.closed = false) (hne : ropts ≠ []) :
    (∀ e, kr = some e →
      reconfigure l kr ropts
        = (some e, l, [if l.abi = 1 then Ioctl.setConfigV1 else Ioctl.setConfigV2])) ∧
    (kr = none →
      reconfigure l kr ropts
        = (none,
           (if l.abi = 1 then { l with config := (mergedOptions l ropts).config }
            else { l with config := (mergedOptions l ropts).config,
                          values := (mergedOptions l ropts).values }),
           [if l.abi = 1 then Ioctl.setConfigV1 else Ioctl.setConfigV2])) := by
  have hlen : ¬ropts.length = 0 := by
    simpa [List.length_eq_zero] using hne
  constructor
  · intro e he
    subst he
    by_cases habi : l.abi = 1 <;> simp [reconfigure, hev, hcl, hlen, habi]
  · intro he
    subst he
    by_cases habi : l.abi = 1 <;> simp [reconfigure, hev, hcl, hlen, habi]

/-- Claim C3 witness: ABI v1 kernel failure leaves the request untouched
and the error is propagated. -/
theorem reconfigure_cache_spec_witness :
    lineC3.isEvent = false ∧ lineC3.closed = false ∧
    reconfigure lineC3 (some (.kernel 5)) [roptC3]
      = (some (.kernel 5), lineC3, [Ioctl.setConfigV1]) := by
  refine ⟨rfl, rfl, ?_⟩
  have h := (reconfigure_cache_spec lineC3 (some (.kernel 5)) [roptC3]
    rfl rfl (by simp)).1 (.kernel 5) rfl
  simpa using h

/-- Claim C3 counterexample: under ABI v1, a successful reconfigure of an
output request does not update the cached values to the merged values —
the merge yields `[1]` but the cache stays `[0]`, refuting the claim's
success clause for ABI v1. -/
theorem reconfigure_v1_values_not_updated :
    lineC3.config.direction = .output ∧
    (mergedOptions lineC3 [roptC3]).values = [1] ∧
    (reconfigure lineC3 none [roptC3]).1 = none ∧
    (reconfigure lineC3 none [roptC3]).2.1.values = [0] :=
  ⟨rfl, rfl, rfl, rfl⟩

/-- Claim C5 (amended): once a request is closed, every further close
returns the already-closed error; `value`, `values`, `info` and `infos`
fail with the closed error; `setValue`/`setValues` fail with the closed
error when the request's direction is output and with the permission error
otherwise (the direction check precedes the closed check); `reconfigure`
fails with the closed error when at least one option is supplied and the
request is not an event request, fails with EINVAL when it is an event
request, and returns success as a no-op when no options are supplied. -/
theorem closed_request_ops (l : BaseLine) (k : KernState) (buf : List Int)
    (v : Int) (vs : List Int) (fetch : Except GErr LineInfo)
    (fetchs : Except GErr (List LineInfo)) (kr : Option GErr)
    (ropts : List LineReconfig)
    (hcl : l.closed = true) :
    baseClose l = .error .errClosed ∧
    lineValue l k = .error .errClosed ∧
    linesValues l k buf = .error .errClosed ∧
    lineInfoReq l fetch = .error .errClosed ∧
    linesInfoReq l fetchs = .error .errClosed ∧
    (l.config.direction = .output →
      lineSetValue l k v = .error .errClosed ∧
      linesSetValues l k vs = .error .errClosed) ∧
    (l.config.direction ≠ .output →
      lineSetValue l k v = .error .errPermissionDenied ∧
      linesSetValues l k vs = .error .errPermissionDenied) ∧
    (l.isEvent = false → ropts ≠ [] → (reconfigure l kr ropts).1 = some .errClosed) ∧
    (l.isEvent = false → (reconfigure l kr []).1 = none) ∧
    (l.isEvent = true → (reconfigure l kr ropts).1 = some einval) := by
  refine ⟨?_, ?_, ?_, ?_, ?_, ?_, ?_, ?_, ?_, ?_⟩
  · simp [baseClose, hcl]
  · simp [lineValue, hcl]
  · simp [linesValues, hcl]
  · simp [lineInfoReq, hcl]
  · simp [linesInfoReq, hcl]
  · intro hdir
    constructor <;> simp [lineSetValue, linesSetValues, hdir, hcl]
  · intro hdir
    constructor <;> simp [lineSetValue, linesSetValues, hdir]
  · intro hev hne
    have hlen : ¬ropts.length = 0 := by
      simpa [List.length_eq_zero] using hne
    simp [reconfigure, hev, hcl, hlen]
  · intro hev
    simp [reconfigure, hev]
  · intro hev
    simp [reconfigure, hev]

/-- Claim C5 witness: a concrete closed output request fails a second
close, a read and a write with the closed error, and its no-option
reconfigure succeeds as a no-op. -/
theorem closed_request_ops_witness :
    lineC5.closed = true ∧
    baseClose lineC5 = .error .errClosed ∧
    linesValues lineC5 kernC5 [0] = .error .errClosed ∧
    lineSetValue lineC5 kernC5 0 = .error .errClosed := by
  have h := closed_request_ops lineC5 kernC5 [0] 0 [] (.ok {}) (.ok [])
    none [] rfl
  exact ⟨rfl, h.1, h.2.2.1, (h.2.2.2.2.2.1 rfl).1⟩

/-- Claim C5 counterexample: `Reconfigure` with no options on a closed,
non-event request returns success (the empty-options no-op check precedes
the closed check), so not every operation after close fails. -/
theorem reconfigure_empty_after_close_succeeds :
    lineC5.closed = true ∧
    reconfigure lineC5 none [] = (none, lineC5, []) :=
  ⟨rfl, rfl⟩

/-- Claim C7: `Chip.LineInfo` returns the closed error if the chip is
closed, the invalid-offset error if the offset is negative or not below
the chip's line count, and otherwise issues the info query for the chip's
cached ABI version; no line ownership is involved. -/
theorem chip_lineInfo_spec (c : Chip) (offset : Int) :
    (c.closed = true → c.lineInfo offset = .error .errClosed) ∧
    (c.closed = false → (offset < 0 ∨ (c.lines : Int) ≤ offset) →
      c.lineInfo offset = .error .errInvalidOffset) ∧
    (c.closed = false → 0 ≤ offset → offset < (c.lines : Int) →
      c.lineInfo offset
        = .ok (if c.options.abi = 1 then InfoQuery.v1 offset
               else InfoQuery.v2 offset)) := by
  refine ⟨?_, ?_, ?_⟩
  · intro h
    simp [Chip.lineInfo, h]
  · intro h hoff
    simp [Chip.lineInfo, h, hoff]
  · intro h h0 hlt
    have hoff : ¬(offset < 0 ∨ (c.lines : Int) ≤ offset) := by omega
    by_cases habi : c.options.abi = 1 <;> simp [Chip.lineInfo, h, hoff, habi]

/-- Claim C7 witness: on an open 8-line ABI v2 chip, offset 3 issues the v2
info query and offset 9 is rejected. -/
theorem chip_lineInfo_spec_witness :
    chipX2.closed = false ∧
    chipX2.lineInfo 3 = .ok (InfoQuery.v2 3) ∧
    chipX2.lineInfo 9 = .error .errInvalidOffset := by
  refine ⟨rfl, ?_, ?_⟩
  · have h := (chip_lineInfo_spec chipX2 3).2.2 rfl (by decide) (by decide)
    simpa using h
  · exact (chip_lineInfo_spec chipX2 9).2.1 rfl (by decide)

/-- Claim C6: a successful `Lines.Values` call fills exactly the first
`min (buffer length) (line count)` buffer entries with the active states
reported by the kernel, in request order, and leaves every later buffer
slot unchanged (same length, same entries from the fill count on). -/
theorem values_frame_effect (l : BaseLine) (k : KernState) (buf out : List Int)
    (hmax : l.offsets.length ≤ 64)
    (h : linesValues l k buf = .ok out) :
    out = (List.range (min buf.length l.offsets.length)).map
            (fun i => if k.vals.getD i false then (1 : Int) else 0)
          ++ buf.drop (min buf.length l.offsets.length) ∧
    out.length = buf.length ∧
    (∀ j, min buf.length l.offsets.length ≤ j → out.getD j 0 = buf.getD j 0) := by
  have hmin : min buf.length l.offsets.length ≤ buf.length := Nat.min_le_left _ _
  have hout : out = (List.range (min buf.length l.offsets.length)).map
      (fun i => if k.vals.getD i false then (1 : Int) else 0)
      ++ buf.drop (min buf.length l.offsets.length) := by
    unfold linesValues at h
    split at h
    · simp at h
    · split at h
      · cases hk : kGetLineValues k with
        | error e => rw [hk] at h; simp at h
        | ok hd =>
          rw [hk] at h
          unfold kGetLineValues at hk
          split at hk
          · simp only [Except.ok.injEq] at hk
            subst hk
            simp only [Except.ok.injEq] at h
            subst h
            congr 1
            apply List.map_congr_left
            intro i hi
            rw [List.mem_range] at hi
            rw [rangeMap_getD]
            have h64 : i < 64 := by omega
            simp [h64]
          · simp at hk
      · cases hk : kGetLineValuesV2 k with
        | error e => rw [hk] at h; simp at h
        | ok lv =>
          rw [hk] at h
          unfold kGetLineValuesV2 at hk
          split at hk
          · simp at hk
          · simp only [Except.ok.injEq] at hk
            subst hk
            simp only [Except.ok.injEq] at h
            subst h
            congr 1
            apply List.map_congr_left
            intro i hi
            rw [List.mem_range] at hi
            unfold lvGet
            rw [rangeMap_getD]
            have h64 : i < 64 := by omega
            simp [h64]
  refine ⟨hout, ?_, ?_⟩
  · rw [hout]
    exact length_append_drop _ _ _ (by simp) hmin
  · intro j hj
    rw [hout]
    exact getD_append_drop _ _ _ _ (by simp) hj

/-- Claim C6 witness: a two-line request read into a four-slot buffer fills
the first two slots and leaves the trailing slots untouched. -/
theorem values_frame_effect_witness :
    linesValues lineC6 kernC6 [9, 9, 9, 9] = .ok [1, 0, 9, 9] ∧
    [1, 0, 9, 9] = (List.range (min 4 lineC6.offsets.length)).map
        (fun i => if kernC6.vals.getD i false then (1 : Int) else 0)
      ++ [9, 9, 9, 9].drop (min 4 lineC6.offsets.length) := by
  refine ⟨by rfl, ?_⟩
  have h := values_frame_effect lineC6 kernC6 [9, 9, 9, 9] [1, 0, 9, 9]
    (by decide) (by rfl)
  simpa using h.1

/-- Claim C4: a successful `Lines.SetValues` followed by `Lines.Values` on
the same request, with a buffer at least as long as the line count and no
intervening change of the kernel state, returns exactly the values
written, in request order, with surplus supplied values ignored and
missing values read back as inactive (`(vals.take n).getD i 0` is the
supplied value for `i` below the supplied count and 0 beyond it). -/
theorem setValues_values_roundtrip (l l' : BaseLine) (k k' : KernState)
    (vals buf : List Int)
    (habi : l.abi = 1 ↔ k.v1 = true)
    (hn : k.nlines = l.offsets.length)
    (hmax : l.offsets.length ≤ 64)
    (hbuf : l.offsets.length ≤ buf.length)
    (hbits : ∀ x ∈ vals, x = 0 ∨ x = 1)
    (hset : linesSetValues l k vals = .ok (l', k')) :
    linesValues l' k' buf =
      .ok ((List.range l.offsets.length).map
            (fun i => (vals.take l.offsets.length).getD i 0)
           ++ buf.drop l.offsets.length) := by
  have htv : (if l.offsets.length < vals.length then vals.take l.offsets.length
      else vals) = vals.take l.offsets.length := by
    split
    · rfl
    · rename_i hle
      exact (List.take_of_length_le (Nat.le_of_not_lt hle)).symm
  unfold linesSetValues at hset
  split at hset
  · simp at hset
  · split at hset
    · simp at hset
    · rename_i hdir hcl
      rw [htv] at hset
      simp only [] at hset
      cases hk : kSetLineValuesV2 k (setLoop lvZero 0 (vals.take l.offsets.length)) with
      | error e => rw [hk] at hset; simp at hset
      | ok k2 =>
        rw [hk] at hset
        simp only [Except.ok.injEq, Prod.mk.injEq] at hset
        obtain ⟨hl', hk2'⟩ := hset
        rw [hk2'] at hk
        unfold kSetLineValuesV2 at hk
        split at hk
        · simp at hk
        · rename_i hv1
          simp only [Except.ok.injEq] at hk
          have hKv1 : k'.v1 = false := by
            rw [← hk]
            simpa using hv1
          have hKvals : k'.vals = (List.range k.nlines).map
              (fun i => (setLoop lvZero 0 (vals.take l.offsets.length)).getD i false) := by
            rw [← hk]
          have hLcl : l'.closed = false := by
            rw [← hl']
            simpa using hcl
          have hLabi : ¬l'.abi = 1 := by
            rw [← hl']
            intro h1
            exact hv1 (habi.mp h1)
          have hLoff : l'.offsets = l.offsets := by rw [← hl']
          unfold linesValues
          rw [if_neg (by rw [hLcl]; simp)]
          rw [if_neg hLabi]
          rw [show kGetLineValuesV2 k'
              = .ok ((List.range 64).map (fun i => k'.vals.getD i false)) from by
            unfold kGetLineValuesV2
            rw [hKv1]
            rfl]
          simp only [Except.ok.injEq]
          rw [hLoff]
          have hminn : min buf.length l.offsets.length = l.offsets.length :=
            min_eq_right hbuf
          rw [hminn]
          congr 1
          apply List.map_congr_left
          intro i hi
          rw [List.mem_range] at hi
          have h64 : i < 64 := by omega
          have hik : i < k.nlines := by omega
          unfold lvGet
          rw [rangeMap_getD, if_pos h64, hKvals, rangeMap_getD, if_pos hik,
              setLoop_zero_getD _ _ h64]
          by_cases hitv : i < (vals.take l.offsets.length).length
          · rw [if_pos hitv]
            have hmem : (vals.take l.offsets.length).getD i 0 ∈ vals := by
              rw [List.getD_eq_getElem?_getD, List.getElem?_eq_getElem hitv,
                  Option.getD_some]
              exact List.take_subset _ _ (List.getElem_mem _)
            rcases hbits _ hmem with h0 | h1
            · rw [h0]
              simp
            · rw [h1]
              simp
          · rw [if_neg hitv]
            have hnone : (vals.take l.offsets.length).getD i 0 = 0 := by
              rw [List.getD_eq_getElem?_getD, List.getElem?_eq_none (by omega)]
              rfl
            rw [hnone]
            simp

/-- Claim C4 witness: writing four values to a three-line request (surplus
ignored) then reading into a four-slot buffer returns the three written
values followed by the untouched fourth slot. -/
theorem setValues_values_roundtrip_witness :
    linesSetValues lineC4 kernC4 [1, 0, 1, 1] = .ok (lineC4w, kernC4w) ∧
    linesValues lineC4w kernC4w [7, 7, 7, 9] = .ok [1, 0, 1, 9] := by
  refine ⟨by rfl, ?_⟩
  have h := setValues_values_roundtrip lineC4 lineC4w kernC4 kernC4w
    [1, 0, 1, 1] [7, 7, 7, 9] (by decide) (by decide) (by decide) (by decide)
    (by decide) (by rfl)
  simpa using h

/-- Claim C8: the effective line options of `Chip.RequestLines` start from
the chip's defaults and are overridden field by field, the last caller
option that explicitly sets a field winning; with no options the chip
defaults are used unchanged; and the chip (with its stored defaults) is
returned unmutated. -/
theorem requestLines_option_merge (c : Chip) (offsets : List Int)
    (opts : List LineOption) (kok : Bool) :
    ((c.requestLines offsets opts kok).2 = c) ∧
    (effectiveLineOptions c [] = chipLineOptions c) ∧
    ((effectiveLineOptions c opts).consumer
        = (lastSet LineOption.consumer opts).getD c.options.consumer) ∧
    ((effectiveLineOptions c opts).abi
        = (lastSet LineOption.abi opts).getD c.options.abi) ∧
    ((effectiveLineOptions c opts).eh
        = (lastSet LineOption.eh opts).getD false) ∧
    ((effectiveLineOptions c opts).config.direction
        = (lastSet LineOption.direction opts).getD c.options.config.direction) ∧
    ((effectiveLineOptions c opts).config.drive
        = (lastSet LineOption.drive opts).getD c.options.config.drive) ∧
    ((effectiveLineOptions c opts).config.bias
        = (lastSet LineOption.bias opts).getD c.options.config.bias) ∧
    ((effectiveLineOptions c opts).config.edgeDetection
        = (lastSet LineOption.edge opts).getD c.options.config.edgeDetection) := by
  refine ⟨?_, rfl, ?_, ?_, ?_, ?_, ?_, ?_, ?_⟩
  · unfold Chip.requestLines
    split
    · rfl
    · simp only []
      split
      · split <;> rfl
      · split
        · split <;> rfl
        · split <;> rfl
  · exact foldl_apply_get (fun lo => lo.consumer) LineOption.consumer
      (fun o lo => rfl) opts (chipLineOptions c)
  · exact foldl_apply_get (fun lo => lo.abi) LineOption.abi
      (fun o lo => rfl) opts (chipLineOptions c)
  · exact foldl_apply_get (fun lo => lo.eh) LineOption.eh
      (fun o lo => rfl) opts (chipLineOptions c)
  · exact foldl_apply_get (fun lo => lo.config.direction) LineOption.direction
      (fun o lo => applyConfig_direction o lo.config) opts (chipLineOptions c)
  · exact foldl_apply_get (fun lo => lo.config.drive) LineOption.drive
      (fun o lo => applyConfig_drive o lo.config) opts (chipLineOptions c)
  · exact foldl_apply_get (fun lo => lo.config.bias) LineOption.bias
      (fun o lo => applyConfig_bias o lo.config) opts (chipLineOptions c)
  · exact foldl_apply_get (fun lo => lo.config.edgeDetection) LineOption.edge
      (fun o lo => applyConfig_edge o lo.config) opts (chipLineOptions c)

/-- Structural facts about `newChip`: the resulting handle is open and
keeps the requested name and line count. -/
theorem newChipLabel_options (c : Chip) : (newChipLabel c).options = c.options := by
  unfold newChipLabel
  split <;> rfl

theorem newChipLabel_closed (c : Chip) : (newChipLabel c).closed = c.closed := by
  unfold newChipLabel
  split <;> rfl

theorem newChipLabel_lines (c : Chip) : (newChipLabel c).lines = c.lines := by
  unfold newChipLabel
  split <;> rfl

theorem newChipProbe_closed (c : Chip) (kinfo : InfoQuery → Bool) :
    (newChipProbe c kinfo).closed = c.closed := by
  unfold newChipProbe
  split
  · split <;> rfl
  · rfl

theorem newChipProbe_lines (c : Chip) (kinfo : InfoQuery → Bool) :
    (newChipProbe c kinfo).lines = c.lines := by
  unfold newChipProbe
  split
  · split <;> rfl
  · rfl

theorem newChip_fields (name label : String) (lines : Nat) (co : ChipOptions)
    (kinfo : InfoQuery → Bool) :
    (newChip name label lines co kinfo).closed = false ∧
    (newChip name label lines co kinfo).lines = lines := by
  unfold newChip
  rw [newChipLabel_closed, newChipLabel_lines, newChipProbe_closed,
    newChipProbe_lines]
  exact ⟨rfl, rfl⟩

/-- Claim C9: opening a chip without an explicit ABI version (0,
auto-detect) issues a single probe `LineInfo(0)` — which, with the cached
version still 0, takes the v2 info-query path — and caches version 2 if
that v2 query succeeds and 1 otherwise, so the cached version is always 1
or 2; every subsequent info query dispatches on the cached version, and
every request whose options do not override the ABI dispatches on the
cached version as well (v2 unified path exactly when the cached version is
2). -/
theorem newChip_abi_probe (name label : String) (lines : Nat) (co : ChipOptions)
    (kinfo : InfoQuery → Bool) (h0 : co.abi = 0) :
    ((newChip name label lines co kinfo).options.abi
        = if 0 < lines ∧ kinfo (.v2 0) = true then 2 else 1) ∧
    ((newChip name label lines co kinfo).options.abi = 1 ∨
      (newChip name label lines co kinfo).options.abi = 2) ∧
    (∀ offset : Int, 0 ≤ offset → offset < (lines : Int) →
      (newChip name label lines co kinfo).lineInfo offset
        = .ok (if (newChip name label lines co kinfo).options.abi = 1
               then InfoQuery.v1 offset else InfoQuery.v2 offset)) ∧
    (∀ (offsets : List Int) (opts : List LineOption) (kok : Bool)
        (ll : BaseLine) (kind : ReqKind),
      (∀ o ∈ opts, o.abi = none) →
      ((newChip name label lines co kinfo).requestLines offsets opts kok).1
          = .ok (ll, kind) →
      ll.abi = (newChip name label lines co kinfo).options.abi ∧
      (kind = .lineV2 ↔ (newChip name label lines co kinfo).options.abi = 2)) := by
  have hbaseInfo : (newChipBase name label lines co).lineInfo 0
      = if lines = 0 then .error .errInvalidOffset else .ok (.v2 0) := by
    by_cases hl : lines = 0
    · subst hl
      simp [Chip.lineInfo, newChipBase]
    · have hoff : ¬((0 : Int) < 0 ∨ (lines : Int) ≤ 0) := by omega
      simp [Chip.lineInfo, newChipBase, hoff, hl, h0]
  have hprobe : (newChip name label lines co kinfo).options.abi
      = if 0 < lines ∧ kinfo (.v2 0) = true then 2 else 1 := by
    unfold newChip
    rw [newChipLabel_options]
    unfold newChipProbe
    rw [if_pos (show (newChipBase name label lines co).options.abi = 0 from h0)]
    rw [hbaseInfo]
    by_cases hl : 0 < lines
    · have hl' : ¬lines = 0 := by omega
      by_cases hkv : kinfo (.v2 0) = true <;> simp [hl, hl', hkv, newChipBase]
    · have hl' : lines = 0 := by omega
      simp [hl, hl', newChipBase]
  have h12 : (newChip name label lines co kinfo).options.abi = 1 ∨
      (newChip name label lines co kinfo).options.abi = 2 := by
    rw [hprobe]
    split
    · right; rfl
    · left; rfl
  obtain ⟨hcl, hln⟩ := newChip_fields name label lines co kinfo
  refine ⟨hprobe, h12, ?_, ?_⟩
  · intro offset hge hlt
    have hoff : ¬(offset < 0 ∨ ((newChip name label lines co kinfo).lines : Int)
        ≤ offset) := by
      rw [hln]
      omega
    by_cases habi1 : (newChip name label lines co kinfo).options.abi = 1 <;>
      simp [Chip.lineInfo, hcl, hoff, habi1]
  · intro offsets opts kok ll kind hnone hreq
    obtain ⟨habi, -, -, -, hkind, -, -⟩ :=
      requestLines_ok_shape _ offsets opts kok ll kind hreq
    have heff : (effectiveLineOptions (newChip name label lines co kinfo) opts).abi
        = (newChip name label lines co kinfo).options.abi := by
      have h := foldl_apply_get (fun lo => lo.abi) LineOption.abi
        (fun o lo => rfl) opts (chipLineOptions (newChip name label lines co kinfo))
      have hfm : opts.filterMap LineOption.abi = [] :=
        List.filterMap_eq_nil_iff.mpr hnone
      rw [lastSet, hfm] at h
      exact h
    rw [heff] at habi hkind
    exact ⟨habi, hkind⟩

/-- Chip options requesting ABI auto-detection. -/
def coC9 : ChipOptions := { consumer := "gpiod-test", config := {}, abi := 0 }

/-- A kernel that accepts every info query (ABI v2 supported). -/
def kinfoC9 : InfoQuery → Bool := fun _ => true

/-- Claim C9 witness: auto-detection against a v2-capable kernel on an
8-line chip caches version 2, and the subsequent info query for offset 3
takes the v2 path. -/
theorem newChip_abi_probe_witness :
    coC9.abi = 0 ∧
    (newChip "gpiochip0" "mock" 8 coC9 kinfoC9).options.abi = 2 ∧
    (newChip "gpiochip0" "mock" 8 coC9 kinfoC9).lineInfo 3
      = .ok (InfoQuery.v2 3) := by
  have h := newChip_abi_probe "gpiochip0" "mock" 8 coC9 kinfoC9 rfl
  refine ⟨rfl, ?_, ?_⟩
  · rw [h.1]
    simp [kinfoC9]
  · have h3 := h.2.2.1 3 (by decide) (by decide)
    rw [h.1] at h3
    simpa [kinfoC9] using h3

/-- Claim C10: when the kernel watch ioctl fails, `Chip.WatchLineInfo`
registers no handler — the per-offset handler map answers exactly as
before the call (empty if the info watcher was only just created) — while
a newly created info watcher remains attached to the chip; if the watcher
already existed the chip is returned entirely unchanged. -/
theorem watchLineInfo_fail_no_register (c : Chip) (offset : Int) (h : Nat)
    (createOk : Bool) (hcl : c.closed = false) (hinv : c.iw = false → c.ich = []) :
    ((c.watchLineInfo offset h createOk false).1.isSome = true) ∧
    (∀ o : Int, List.lookup o (c.watchLineInfo offset h createOk false).2.ich
        = List.lookup o c.ich) ∧
    (createOk = true → (c.watchLineInfo offset h createOk false).2.iw = true) ∧
    (c.iw = true → (c.watchLineInfo offset h createOk false).2 = c) := by
  unfold Chip.watchLineInfo
  rw [if_neg (by rw [hcl]; simp)]
  cases hiw : c.iw with
  | true =>
    by_cases habi : c.options.abi = 1 <;> simp [hiw, habi]
  | false =>
    have hich : c.ich = [] := hinv hiw
    cases createOk with
    | false => simp [hiw, hich]
    | true =>
      by_cases habi : c.options.abi = 1 <;> simp [hiw, habi, hich]

/-- An open chip with no info watcher attached yet. -/
def chipC10 : Chip :=
  { name := "gpiochip0", label := "mock", lines := 8,
    options := { consumer := "gpiod-test", config := {}, abi := 2 },
    iw := false, ich := [], closed := false }

/-- Claim C10 witness: on a fresh chip the watcher gets created, the watch
ioctl fails, no handler is registered for offset 3, and the watcher stays
attached. -/
theorem watchLineInfo_fail_no_register_witness :
    chipC10.closed = false ∧
    (chipC10.watchLineInfo 3 7 true false).1.isSome = true ∧
    List.lookup 3 (chipC10.watchLineInfo 3 7 true false).2.ich
      = List.lookup 3 chipC10.ich ∧
    (chipC10.watchLineInfo 3 7 true false).2.iw = true := by
  have h := watchLineInfo_fail_no_register chipC10 3 7 true rfl (fun _ => rfl)
  exact ⟨rfl, h.1, h.2.1 3, h.2.2.1 rfl⟩

end Gpiod
